import Mathlib

/-!
Shallow embedding of the "Kick Start Visuals" backend (src/main.py and
src/schemas.py): credential hashing/verification, JWT token service, the
MongoDB-backed document store, and the HTTP endpoint handlers that the
specification's claims are about.  Machine state is explicit (`DB`),
HTTP failures are `Except` errors mirroring `HTTPException`, and time is
a `Nat` of seconds passed explicitly.
-/

set_option autoImplicit false

/-- Error raised by passlib when a hash string cannot be matched to any
configured scheme.  Models `passlib.exc.UnknownHashError` (a `ValueError`),
which `CryptContext.verify` raises for malformed or empty hash input. -/
inductive PasslibError where
  | unknownHash
  deriving DecidableEq, Repr

/-- `main.hash_password`: `pwd_context.hash(password)` with the bcrypt
scheme.  The bcrypt digest is abstracted as an injective tagged encoding:
what matters for the embedding is that the output is identified as a
bcrypt hash and that verification succeeds exactly for the hashed
password. -/
def hash_password (password : String) : String :=
  "$2b$12$" ++ password

/-- Whether passlib can identify a stored string as a hash of the
configured bcrypt scheme (in the embedding: it carries the bcrypt tag). -/
def identifyHash (hashed : String) : Bool :=
  hashed.data.take 7 == "$2b$12$".data

deriving instance DecidableEq for Except

/-- `main.verify_password`: `pwd_context.verify(password, hashed)`.
Modelled after passlib's documented behaviour: if the hash cannot be
identified as one of the configured schemes, `verify` raises
`UnknownHashError` instead of returning a boolean. -/
def verify_password (password : String) (hashed : String) : Except PasslibError Bool :=
  if identifyHash hashed then .ok (hashed == hash_password password) else .error .unknownHash

/-- `main.JWT_SECRET`: `os.getenv("JWT_SECRET", "dev-secret")`; the
embedding uses the default value, held fixed for the process lifetime. -/
def JWT_SECRET : String := "dev-secret"

/-- `main.ACCESS_TOKEN_EXPIRE_MINUTES = 60 * 24 * 7`, converted here to
seconds (the unit of the embedding's clock). -/
def ACCESS_TOKEN_EXPIRE_SECONDS : Nat := 60 * 24 * 7 * 60

/-- A decoded JWT as the code uses it: the `sub` claim (optional), the
`exp` claim (absolute expiry instant, seconds), and the HS256 signature
over payload and secret, abstracted as a `Nat`. -/
structure Token where
  sub : Option String
  exp : Nat
  sig : Nat
  deriving DecidableEq, Repr

/-- Abstraction of the HS256 signature over the payload fields and the
symmetric secret.  Any computable function works here: the embedding
never relies on collision resistance, only on signature mismatch being
detectable, which is hypothesised where needed. -/
def signature (secret : String) (sub : Option String) (exp : Nat) : Nat :=
  (secret ++ "|" ++ (match sub with | some s => "S" ++ s | none => "N")).length + 37 * exp

/-- `main.create_access_token(data, expires_delta)`: copies the payload,
sets `exp = now + (expires_delta or default)` and signs with
`JWT_SECRET`.  Python's `or` falls back to the default also when a zero
`timedelta` is passed (a zero delta is falsy). -/
def create_access_token (sub : Option String) (expires_delta : Option Nat) (now : Nat) : Token :=
  let delta := match expires_delta with
    | some d => if d == 0 then ACCESS_TOKEN_EXPIRE_SECONDS else d
    | none => ACCESS_TOKEN_EXPIRE_SECONDS
  { sub := sub, exp := now + delta, sig := signature JWT_SECRET sub (now + delta) }

/-- The two failure kinds of `jwt.decode` that `get_current_user`
distinguishes: `ExpiredSignatureError`, and every other `PyJWTError`
(bad signature, structurally malformed token). -/
inductive JwtError where
  | expiredSignature
  | invalidToken
  deriving DecidableEq, Repr

/-- `jwt.decode(token, JWT_SECRET, algorithms=[JWT_ALG])`: verifies the
signature first, then the `exp` claim (expired when `exp <= now`,
PyJWT's check with zero leeway), and returns the payload. -/
def jwt_decode (t : Token) (secret : String) (now : Nat) : Except JwtError (Option String × Nat) :=
  if t.sig != signature secret t.sub t.exp then .error .invalidToken
  else if t.exp ≤ now then .error .expiredSignature
  else .ok (t.sub, t.exp)

/-- The token-level error taxonomy surfaced by `get_current_user`:
`TokenExpired` is the 401 "Token expired" branch; `TokenInvalid` is the
catch-all 401 "Could not validate credentials" branch (which also
swallows the `HTTPException` raised for a missing `sub` claim, since
`HTTPException` is an `Exception` and the handler's `except Exception`
catches it). -/
inductive TokenError where
  | tokenExpired
  | tokenInvalid
  deriving DecidableEq, Repr

/-- The token-decoding part of `main.get_current_user`: decode the JWT,
read `payload.get("sub")`, and map failures through the handler's
`except` clauses. -/
def decode_subject (t : Token) (now : Nat) : Except TokenError String :=
  match jwt_decode t JWT_SECRET now with
  | .error .expiredSignature => .error .tokenExpired
  | .error .invalidToken => .error .tokenInvalid
  | .ok (none, _) => .error .tokenInvalid
  | .ok (some s, _) => .ok s

/-- `fastapi.HTTPException`: a status code and a human-readable detail. -/
structure HTTPException where
  status_code : Nat
  detail : String
  deriving DecidableEq, Repr

/-- A document of the `user` collection (`schemas.User` plus the `_id`
MongoDB assigns; ObjectIds are abstracted as `Nat`). -/
structure UserDoc where
  id : Nat
  name : String
  email : String
  password_hash : String
  phone : Option String
  is_admin : Bool
  deriving DecidableEq, Repr

/-- One element of a project's `files` list, as built by
`main.upload_file`. -/
structure FileMeta where
  filename : String
  content_type : String
  size : Nat
  uploaded_at : Nat
  deriving DecidableEq, Repr

/-- A document of the `project` collection: `schemas.Project` plus `_id`.
Note the schema has no `created_at` field, so stored project documents
carry no creation timestamp. -/
structure ProjectDoc where
  id : Nat
  user_id : String
  name : String
  email : String
  phone : Option String
  selected_service : String
  description : String
  budget : Option String
  status : String
  notes : Option String
  files : List FileMeta
  deriving DecidableEq, Repr

/-- A document of the `message` collection (`schemas.Message`; `_id` is
never consulted by the handlers modelled here and is omitted). -/
structure MessageDoc where
  project_id : String
  sender_id : String
  sender_role : String
  content : String
  created_at : Nat
  deriving DecidableEq, Repr

/-- The MongoDB database: the three collections in insertion order plus
the next ObjectId to assign (MongoDB `_id`s are unique; the embedding
makes them sequential). -/
structure DB where
  users : List UserDoc
  projects : List ProjectDoc
  messages : List MessageDoc
  nextId : Nat
  deriving DecidableEq, Repr

/-- MongoDB `update_one`: rewrite the first document matching the filter,
leave everything else untouched; matching nothing is a no-op. -/
def updateOne {α : Type} (l : List α) (pred : α → Bool) (f : α → α) : List α :=
  match l with
  | [] => []
  | x :: xs => if pred x then f x :: xs else x :: updateOne xs pred f

/-- Request body of `POST /auth/login` (`main.LoginModel`). -/
structure LoginModel where
  email : String
  password : String
  deriving DecidableEq, Repr

/-- Request body of `PUT /me` (`main.ProfileUpdateModel`). -/
structure ProfileUpdateModel where
  name : Option String
  phone : Option String
  deriving DecidableEq, Repr

/-- Request body of `POST /projects` (`main.ProjectCreateModel`). -/
structure ProjectCreateModel where
  name : String
  email : String
  phone : Option String
  selected_service : String
  description : String
  budget : Option String
  deriving DecidableEq, Repr

/-- Request body of `PUT /admin/projects/.../status`
(`main.StatusUpdateModel`). -/
structure StatusUpdateModel where
  status : String
  notes : Option String
  deriving DecidableEq, Repr

/-- Outcome of `POST /auth/login`: success carries the authenticated
user's id (the `sub` bound into the issued token); `invalidCredentials`
is the single `HTTPException(401, "Invalid credentials")`; `serverError`
is an exception escaping the handler (nothing in `login` catches what
`verify_password` raises). -/
inductive LoginOutcome where
  | ok (user_id : Nat)
  | invalidCredentials
  | serverError (e : PasslibError)
  deriving DecidableEq, Repr

/-- `main.login`: look the user up by exact email; `if not user or not
verify_password(payload.password, user.get("password_hash", ""))` raise
401 "Invalid credentials"; otherwise issue a token for `str(user._id)`.
`verify_password` may itself raise, which propagates out of the
handler. -/
def login (payload : LoginModel) (db : DB) : LoginOutcome :=
  match db.users.find? (fun u => u.email == payload.email) with
  | none => .invalidCredentials
  | some user =>
    match verify_password payload.password user.password_hash with
    | .error e => .serverError e
    | .ok true => .ok user.id
    | .ok false => .invalidCredentials

/-- The `$set` document of `update_me` applied to a user document: set
`name` and `phone` exactly when the payload supplies them; no other
field ever appears in the `$set`. -/
def profileApply (payload : ProfileUpdateModel) (u : UserDoc) : UserDoc :=
  let u := match payload.name with | some n => { u with name := n } | none => u
  match payload.phone with | some ph => { u with phone := some ph } | none => u

/-- `main.update_me`: build the `$set` document from the payload fields
that are not `None`; call `update_one` only when that document is
non-empty; then re-read the user and return the fresh record. -/
def update_me (payload : ProfileUpdateModel) (current_user : UserDoc) (db : DB) :
    Option UserDoc × DB :=
  let db' :=
    if payload.name.isSome || payload.phone.isSome then
      { db with
          users := updateOne db.users (fun u => u.id == current_user.id)
            (profileApply payload) }
    else db
  (db'.users.find? (fun u => u.id == current_user.id), db')

/-- `main.create_project`: insert a `Project` document with status
"Pending", null notes, empty files, owner `str(current_user._id)`; then
insert the initial message document with hard-coded
`"sender_role": "customer"`.  Returns the stringified new project id and
the updated state. -/
def create_project (payload : ProjectCreateModel) (current_user : UserDoc) (db : DB)
    (now : Nat) : String × DB :=
  let pid := db.nextId
  let project : ProjectDoc :=
    { id := pid
      user_id := toString current_user.id
      name := payload.name
      email := payload.email
      phone := payload.phone
      selected_service := payload.selected_service
      description := payload.description
      budget := payload.budget
      status := "Pending"
      notes := none
      files := [] }
  let msg : MessageDoc :=
    { project_id := toString pid
      sender_id := toString current_user.id
      sender_role := "customer"
      content := "New project submitted"
      created_at := now }
  (toString pid,
   { db with
       projects := db.projects ++ [project]
       messages := db.messages ++ [msg]
       nextId := pid + 1 })

/-- The uploaded multipart file as `upload_file` consumes it: a declared
filename and content type, and the body bytes (read fully into memory
only to measure their length). -/
structure UploadedFile where
  filename : String
  content_type : String
  content : List UInt8
  deriving DecidableEq, Repr

/-- The metadata record `upload_file` builds from an uploaded file. -/
def mkFileMeta (file : UploadedFile) (now : Nat) : FileMeta :=
  { filename := file.filename
    content_type := file.content_type
    size := file.content.length
    uploaded_at := now }

/-- `main.upload_file`: `find_one` scoped to `_id == project_id` AND
`user_id == str(current_user._id)`; if that misses and the caller is not
an admin, raise 404 "Project not found"; otherwise `$push` the metadata
onto the `files` array of the document with that `_id` (a no-op when no
such document exists) and return the metadata. -/
def upload_file (project_id : Nat) (file : UploadedFile) (current_user : UserDoc)
    (db : DB) (now : Nat) : Except HTTPException (FileMeta × DB) :=
  let project := db.projects.find?
    (fun p => p.id == project_id && p.user_id == toString current_user.id)
  if project.isNone && !current_user.is_admin then
    .error { status_code := 404, detail := "Project not found" }
  else
    let meta := mkFileMeta file now
    .ok (meta,
      { db with
          projects := updateOne db.projects (fun p => p.id == project_id)
            (fun p => { p with files := p.files ++ [meta] }) })

/-- The sort key `admin_list_projects` asks MongoDB for:
`.sort("created_at", -1)`.  Stored project documents are
`Project.model_dump()` of `schemas.Project`, which has no `created_at`
field (unlike `schemas.Message`), so the key is absent from every
document. -/
def projectCreatedAt (_p : ProjectDoc) : Option Nat := none

/-- Strict descending comparison on an optional sort key; a missing key
sorts like MongoDB's null, below every present value. -/
def cmpDesc (a b : Option Nat) : Bool :=
  match a, b with
  | some x, some y => decide (y < x)
  | some _, none => true
  | none, _ => false

/-- Stable insertion step of the descending sort by `created_at`: an
element moves past another only when the other is strictly greater in
descending order, so equal (here: equally absent) keys keep their
collection order. -/
def insertByCreatedAtDesc (x : ProjectDoc) : List ProjectDoc → List ProjectDoc
  | [] => [x]
  | y :: ys =>
    if cmpDesc (projectCreatedAt y) (projectCreatedAt x) then y :: insertByCreatedAtDesc x ys
    else x :: y :: ys

/-- The cursor `db["project"].find(q).sort("created_at", -1)`: a stable
descending sort on the (absent) `created_at` key, so documents with
equal (here: all missing) keys come back in collection order. -/
def sortByCreatedAtDesc : List ProjectDoc → List ProjectDoc
  | [] => []
  | x :: xs => insertByCreatedAtDesc x (sortByCreatedAtDesc xs)

/-- The filter document `admin_list_projects` builds.  Python's
`if service:` / `if status:` add an equality clause only when the query
parameter is truthy, i.e. neither `None` nor the empty string. -/
def adminProjectFilter (service status : Option String) (p : ProjectDoc) : Bool :=
  (match service with
   | some s => if s == "" then true else p.selected_service == s
   | none => true) &&
  (match status with
   | some s => if s == "" then true else p.status == s
   | none => true)

/-- `main.admin_list_projects`: 403 "Admins only" for non-admin callers;
otherwise filter by the truthy query params and sort by the absent
`created_at` key, descending. -/
def admin_list_projects (service status : Option String) (current_user : UserDoc)
    (db : DB) : Except HTTPException (List ProjectDoc) :=
  if !current_user.is_admin then
    .error { status_code := 403, detail := "Admins only" }
  else
    .ok (sortByCreatedAtDesc (db.projects.filter (adminProjectFilter service status)))

/-- `main.admin_update_status`: 403 "Admins only" for non-admin callers;
otherwise `$set` `status` always and `notes` only when supplied, against
the document with the given `_id` — without checking that any document
matches, so a missing id makes the update a no-op and the handler still
returns "Status updated". -/
def admin_update_status (project_id : Nat) (payload : StatusUpdateModel)
    (current_user : UserDoc) (db : DB) : Except HTTPException (String × DB) :=
  if !current_user.is_admin then
    .error { status_code := 403, detail := "Admins only" }
  else
    let apply : ProjectDoc → ProjectDoc := fun p =>
      let p := { p with status := payload.status }
      match payload.notes with | some n => { p with notes := some n } | none => p
    .ok ("Status updated",
      { db with projects := updateOne db.projects (fun p => p.id == project_id) apply })

/-- The verbatim text of `src/schemas.py`, the schemas module whose
source `get_schema` serves (apostrophes and docstring quotes written as
escapes). -/
def schemasSource : String := String.intercalate "\n"
  [ "\"\"\""
  , "Database Schemas for Kick Start Visuals"
  , ""
  , "Each Pydantic model maps to a MongoDB collection (lowercased class name)."
  , "\"\"\""
  , "from pydantic import BaseModel, Field"
  , "from typing import Optional, List"
  , "from datetime import datetime"
  , ""
  , "class User(BaseModel):"
  , "    name: str = Field(..., description=\"Full name\")"
  , "    email: str = Field(..., description=\"Email address\")"
  , "    password_hash: str = Field(..., description=\"BCrypt hashed password\")"
  , "    phone: Optional[str] = Field(None, description=\"Phone number\")"
  , "    is_admin: bool = Field(False, description=\"Admin role flag\")"
  , ""
  , "class Project(BaseModel):"
  , "    user_id: Optional[str] = Field(None, description=\"Reference to user _id as string\")"
  , "    name: str = Field(..., description=\"Customer name\")"
  , "    email: str = Field(..., description=\"Customer email\")"
  , "    phone: Optional[str] = Field(None, description=\"Customer phone\")"
  , "    selected_service: str = Field(..., description=\"Selected service\")"
  , "    description: str = Field(..., description=\"Project description\")"
  , "    budget: Optional[str] = Field(None, description=\"Optional budget\")"
  , "    status: str = Field(\"Pending\", description=\"Project status\")"
  , "    notes: Optional[str] = Field(None, description=\"Admin notes\")"
  , "    files: List[dict] = Field(default_factory=list, description=\"List of uploaded file metadata\")"
  , ""
  , "class Message(BaseModel):"
  , "    project_id: str = Field(..., description=\"Associated project id\")"
  , "    sender_id: Optional[str] = Field(None, description=\"User id of sender if available\")"
  , "    sender_role: str = Field(..., description=\"\x27admin\x27 or \x27customer\x27\")"
  , "    content: str = Field(..., description=\"Message text\")"
  , "    created_at: Optional[datetime] = None" ]

/-- Response shape of `GET /schema`. -/
structure SchemaResponse where
  schemas : String
  deriving DecidableEq, Repr

/-- `main.get_schema`: returns `inspect.getsource(schemas)` — the full
source text of the schemas module — with no authentication dependency
on the handler. -/
def get_schema : SchemaResponse :=
  { schemas := schemasSource }

/-- One HTTP route: method, path pattern, and whether the handler
declares the bearer-token authentication dependency
(`Depends(get_current_user)`). -/
structure Route where
  method : String
  path : String
  requiresAuth : Bool
  deriving DecidableEq, Repr

/-- The routes registered on the FastAPI app in `src/main.py`, in
declaration order, with their authentication dependency. -/
def appRoutes : List Route :=
  [ { method := "GET", path := "/", requiresAuth := false }
  , { method := "GET", path := "/test", requiresAuth := false }
  , { method := "POST", path := "/auth/signup", requiresAuth := false }
  , { method := "POST", path := "/auth/login", requiresAuth := false }
  , { method := "GET", path := "/me", requiresAuth := true }
  , { method := "PUT", path := "/me", requiresAuth := true }
  , { method := "POST", path := "/projects", requiresAuth := true }
  , { method := "GET", path := "/projects", requiresAuth := true }
  , { method := "POST", path := "/projects/\x7bproject_id\x7d/files", requiresAuth := true }
  , { method := "POST", path := "/projects/\x7bproject_id\x7d/messages", requiresAuth := true }
  , { method := "GET", path := "/projects/\x7bproject_id\x7d/messages", requiresAuth := true }
  , { method := "GET", path := "/admin/projects", requiresAuth := true }
  , { method := "PUT", path := "/admin/projects/\x7bproject_id\x7d/status", requiresAuth := true }
  , { method := "GET", path := "/schema", requiresAuth := false } ]

/-- Modelled from the spec: the documented route table of section 6
("Routes and contracts"), row for row, with its auth column (`bearer`
and `bearer(admin)` are `true`, `none` is `false`).  This definition
follows the spec's words, for comparison against `appRoutes`, which is
taken from the code. -/
def specRouteTable : List Route :=
  [ { method := "GET", path := "/", requiresAuth := false }
  , { method := "GET", path := "/test", requiresAuth := false }
  , { method := "POST", path := "/auth/signup", requiresAuth := false }
  , { method := "POST", path := "/auth/login", requiresAuth := false }
  , { method := "GET", path := "/me", requiresAuth := true }
  , { method := "PUT", path := "/me", requiresAuth := true }
  , { method := "POST", path := "/projects", requiresAuth := true }
  , { method := "GET", path := "/projects", requiresAuth := true }
  , { method := "POST", path := "/projects/\x7bid\x7d/files", requiresAuth := true }
  , { method := "POST", path := "/projects/\x7bid\x7d/messages", requiresAuth := true }
  , { method := "GET", path := "/projects/\x7bid\x7d/messages", requiresAuth := true }
  , { method := "GET", path := "/admin/projects", requiresAuth := true }
  , { method := "PUT", path := "/admin/projects/\x7bid\x7d/status", requiresAuth := true } ]

/-- A non-admin customer, as signup creates one. -/
def alice : UserDoc :=
  { id := 1, name := "Alice", email := "alice@example.com",
    password_hash := hash_password "alicepw", phone := none, is_admin := false }

/-- A second non-admin customer. -/
def bob : UserDoc :=
  { id := 2, name := "Bob", email := "bob@example.com",
    password_hash := hash_password "bobpw", phone := none, is_admin := false }

/-- An admin user. -/
def rootAdmin : UserDoc :=
  { id := 3, name := "Root", email := "root@example.com",
    password_hash := hash_password "rootpw", phone := none, is_admin := true }

/-- A project owned by `alice` (`user_id = "1"`), as `create_project`
stores it. -/
def projectA : ProjectDoc :=
  { id := 10, user_id := "1", name := "Alice", email := "alice@example.com",
    phone := none, selected_service := "design", description := "landing page",
    budget := none, status := "Pending", notes := none, files := [] }

/-- A project owned by `bob`, inserted after `projectA`. -/
def projectB : ProjectDoc :=
  { id := 11, user_id := "2", name := "Bob", email := "bob@example.com",
    phone := none, selected_service := "video", description := "promo video",
    budget := none, status := "Pending", notes := none, files := [] }

/-- A store with the three users and `alice`'s project. -/
def sampleDB : DB :=
  { users := [alice, bob, rootAdmin], projects := [projectA], messages := [], nextId := 12 }

/-- A store with two projects, `projectA` inserted (created) before
`projectB`. -/
def twoProjectDB : DB :=
  { users := [alice, bob, rootAdmin], projects := [projectA, projectB],
    messages := [], nextId := 12 }

/-- An uploaded file used for concrete evaluations. -/
def sampleFile : UploadedFile :=
  { filename := "logo.png", content_type := "image/png", content := [137, 80, 78, 71] }

/-- A project-creation payload used for concrete evaluations. -/
def samplePayload : ProjectCreateModel :=
  { name := "Root", email := "root@example.com", phone := none,
    selected_service := "design", description := "brand refresh", budget := none }

theorem updateOne_length {α : Type} (l : List α) (pred : α → Bool) (f : α → α) :
    (updateOne l pred f).length = l.length := by
  induction l with
  | nil => rfl
  | cons x xs ih =>
    cases hx : pred x <;> simp [updateOne, hx, ih]

theorem updateOne_eq_of_forall_not {α : Type} (l : List α) (pred : α → Bool) (f : α → α)
    (h : ∀ x ∈ l, pred x = false) : updateOne l pred f = l := by
  induction l with
  | nil => rfl
  | cons x xs ih =>
    have hx := h x (List.mem_cons_self x xs)
    simp only [updateOne, hx]
    simp only [Bool.false_eq_true, if_false, List.cons.injEq, true_and]
    exact ih fun y hy => h y (List.mem_cons_of_mem x hy)

/-- `update_one` relates the old and new collection pointwise: every
document either stays identical or is rewritten by the update
function. -/
theorem updateOne_forall₂ {α : Type} (R : α → α → Prop) (l : List α) (pred : α → Bool)
    (f : α → α) (hid : ∀ x, R x x) (hf : ∀ x, R x (f x)) :
    List.Forall₂ R l (updateOne l pred f) := by
  induction l with
  | nil => exact List.Forall₂.nil
  | cons x xs ih =>
    cases hx : pred x
    · simp only [updateOne, hx, Bool.false_eq_true, if_false]
      exact List.Forall₂.cons (hid x) ih
    · simp only [updateOne, hx, if_true]
      exact List.Forall₂.cons (hf x) (List.forall₂_same.mpr fun y _ => hid y)

theorem find?_updateOne {α : Type} (l : List α) (pred : α → Bool) (f : α → α)
    (hf : ∀ x, pred (f x) = pred x) :
    (updateOne l pred f).find? pred = (l.find? pred).map f := by
  induction l with
  | nil => rfl
  | cons x xs ih =>
    cases hx : pred x
    · simp [updateOne, hx, List.find?_cons, ih]
    · simp [updateOne, hx, List.find?_cons, hf x]

theorem updateOne_eq_map_of_countP_le_one {α : Type} (l : List α) (pred : α → Bool)
    (f : α → α) (h : l.countP pred ≤ 1) :
    updateOne l pred f = l.map fun x => if pred x then f x else x := by
  induction l with
  | nil => rfl
  | cons x xs ih =>
    cases hx : pred x
    · have hcount : (x :: xs).countP pred = xs.countP pred :=
        List.countP_cons_of_neg pred xs (by simp [hx])
      rw [hcount] at h
      simp only [updateOne, hx, Bool.false_eq_true, if_false, List.map_cons]
      rw [ih h]
    · have hcount : (x :: xs).countP pred = xs.countP pred + 1 :=
        List.countP_cons_of_pos pred xs hx
      have hzero : xs.countP pred = 0 := by omega
      have hnone : ∀ y ∈ xs, pred y = false := by
        intro y hy
        have := List.countP_eq_zero.mp hzero y hy
        simpa using this
      have hmap : (xs.map fun y => if pred y then f y else y) = xs := by
        have h1 : (xs.map fun y => if pred y then f y else y) = xs.map id :=
          List.map_congr_left fun a ha => by simp [hnone a ha]
        simpa using h1
      simp [updateOne, hx, hmap]

/-- C3 counterexample: on malformed hash input (the empty string, as the
`user.get("password_hash", "")` default produces for a corrupted user
document), `verify_password` raises `UnknownHashError` — it does not
return the boolean `false` the claim promises. -/
theorem verify_password_malformed_hash_raises :
    verify_password "pw" "" = Except.error PasslibError.unknownHash ∧
    (Except.error PasslibError.unknownHash : Except PasslibError Bool) ≠ Except.ok false := by
  decide

/-- C3 (amended): `verify_password` returns a boolean exactly when the
stored hash is identified as a hash of the configured bcrypt scheme; on
malformed hash input (empty or corrupted strings) it raises
`UnknownHashError` instead of returning `false`. -/
theorem verify_password_total_on_identified_hashes (password hashed : String) :
    (identifyHash hashed = true →
      verify_password password hashed = Except.ok (hashed == hash_password password)) ∧
    (identifyHash hashed = false →
      verify_password password hashed = Except.error PasslibError.unknownHash) := by
  unfold verify_password
  constructor <;> intro h <;> simp [h]

theorem verify_password_total_on_identified_hashes_witness :
    (identifyHash (hash_password "pw") = true ∧
      verify_password "pw" (hash_password "pw") = Except.ok true) ∧
    (identifyHash "" = false ∧
      verify_password "pw" "" = Except.error PasslibError.unknownHash) := by
  refine ⟨⟨by decide, ?_⟩,
    ⟨by decide, (verify_password_total_on_identified_hashes "pw" "").2 (by decide)⟩⟩
  have h := (verify_password_total_on_identified_hashes "pw" (hash_password "pw")).1 (by decide)
  simpa using h

/-- A user document whose stored credential is corrupted (empty hash
string), as the login handler's `user.get("password_hash", "")` default
yields for a document missing the field. -/
def corruptUser : UserDoc :=
  { id := 7, name := "Carol", email := "carol@example.com",
    password_hash := "", phone := none, is_admin := false }

/-- A store holding only the corrupted user. -/
def corruptDB : DB :=
  { users := [corruptUser], projects := [], messages := [], nextId := 8 }

/-- C4 counterexample: with a stored hash that does not verify (here a
corrupted empty hash), `login` does not fail with `InvalidCredentials`:
the `UnknownHashError` raised by `verify_password` escapes the handler
as a server error, so the two failure cases are not identical. -/
theorem login_corrupted_hash_server_error :
    login { email := "carol@example.com", password := "guess" } corruptDB =
      LoginOutcome.serverError PasslibError.unknownHash ∧
    LoginOutcome.serverError PasslibError.unknownHash ≠ LoginOutcome.invalidCredentials := by
  decide

/-- C4 (amended): over any user store whose stored hashes are all
well-formed bcrypt hashes (the invariant signup maintains), `login`
succeeds — with the matched user's id as token subject — iff a user
with that exact email exists and `verify_password` returns `true`
against the stored hash; in every other case it fails with the single
error `InvalidCredentials`, identical whether the email lookup or the
password verification failed. -/
theorem login_iff_email_and_verify (payload : LoginModel) (db : DB)
    (hw : ∀ u ∈ db.users, identifyHash u.password_hash = true) :
    ((∃ u, db.users.find? (fun x => x.email == payload.email) = some u ∧
        verify_password payload.password u.password_hash = Except.ok true) →
      ∃ u, db.users.find? (fun x => x.email == payload.email) = some u ∧
        login payload db = LoginOutcome.ok u.id) ∧
    ((¬ ∃ u, db.users.find? (fun x => x.email == payload.email) = some u ∧
        verify_password payload.password u.password_hash = Except.ok true) →
      login payload db = LoginOutcome.invalidCredentials) := by
  constructor
  · rintro ⟨u, hu, hv⟩
    refine ⟨u, hu, ?_⟩
    unfold login
    rw [hu]
    show (match verify_password payload.password u.password_hash with
          | Except.error e => LoginOutcome.serverError e
          | Except.ok true => LoginOutcome.ok u.id
          | Except.ok false => LoginOutcome.invalidCredentials) = LoginOutcome.ok u.id
    rw [hv]
  · intro hn
    unfold login
    cases hfind : db.users.find? (fun x => x.email == payload.email) with
    | none => rfl
    | some u =>
      have hmem : u ∈ db.users := List.mem_of_find?_eq_some hfind
      have hid := hw u hmem
      have hver := (verify_password_total_on_identified_hashes payload.password
        u.password_hash).1 hid
      show (match verify_password payload.password u.password_hash with
            | Except.error e => LoginOutcome.serverError e
            | Except.ok true => LoginOutcome.ok u.id
            | Except.ok false => LoginOutcome.invalidCredentials) =
          LoginOutcome.invalidCredentials
      rw [hver]
      cases hb : (u.password_hash == hash_password payload.password) with
      | false => rfl
      | true =>
        exfalso
        exact hn ⟨u, hfind, by rw [hver, hb]⟩

theorem login_iff_email_and_verify_witness :
    (∀ u ∈ sampleDB.users, identifyHash u.password_hash = true) ∧
    (∃ u, sampleDB.users.find? (fun x => x.email == "alice@example.com") = some u ∧
      login { email := "alice@example.com", password := "alicepw" } sampleDB =
        LoginOutcome.ok u.id) :=
  ⟨by decide,
   (login_iff_email_and_verify { email := "alice@example.com", password := "alicepw" }
      sampleDB (by decide)).1 ⟨alice, by decide, by decide⟩⟩

/-- A store whose next ObjectId is fresh, used by the C1 instances. -/
def preCreateDB : DB :=
  { users := [alice, rootAdmin], projects := [], messages := [], nextId := 5 }

/-- The system message `create_project` inserts: hard-coded sender role
"customer", content "New project submitted", attributed to the
creator. -/
def initialMessage (cu : UserDoc) (pid : String) (now : Nat) : MessageDoc :=
  { project_id := pid, sender_id := toString cu.id, sender_role := "customer",
    content := "New project submitted", created_at := now }

/-- C1 counterexample: when the creator is an admin, the system message
appended by `create_project` still has sender role "customer" — the
handler hard-codes the role instead of deriving it from the creator's
admin flag, so the claimed role "admin" is wrong for admin creators. -/
theorem create_project_message_role_ignores_admin_flag :
    rootAdmin.is_admin = true ∧
    ((create_project samplePayload rootAdmin preCreateDB 0).2.messages.map
        (fun m => m.sender_role)) = ["customer"] ∧
    "customer" ≠ "admin" := by
  refine ⟨rfl, rfl, by decide⟩

/-- C1 (amended): creating a project atomically appends exactly one
system Message with content "New project submitted" (before any other
message exists for that project), attributed to the creator, with
sender role always "customer" regardless of the creator's admin
flag. -/
theorem create_project_initial_message (payload : ProjectCreateModel) (cu : UserDoc)
    (db : DB) (now : Nat)
    (hfresh : ∀ m ∈ db.messages, m.project_id ≠ toString db.nextId) :
    (create_project payload cu db now).1 = toString db.nextId ∧
    (create_project payload cu db now).2.messages =
      db.messages ++ [initialMessage cu (toString db.nextId) now] ∧
    (create_project payload cu db now).2.messages.filter
        (fun m => m.project_id == toString db.nextId) =
      [initialMessage cu (toString db.nextId) now] := by
  refine ⟨rfl, rfl, ?_⟩
  have h2 : (create_project payload cu db now).2.messages =
      db.messages ++ [initialMessage cu (toString db.nextId) now] := rfl
  rw [h2, List.filter_append]
  have h1 : db.messages.filter (fun m => m.project_id == toString db.nextId) = [] := by
    rw [List.filter_eq_nil_iff]
    intro m hm
    simpa using hfresh m hm
  rw [h1]
  simp [initialMessage]

theorem create_project_initial_message_witness :
    (∀ m ∈ preCreateDB.messages, m.project_id ≠ toString preCreateDB.nextId) ∧
    (create_project samplePayload alice preCreateDB 9).2.messages.filter
        (fun m => m.project_id == toString preCreateDB.nextId) =
      [initialMessage alice (toString preCreateDB.nextId) 9] :=
  ⟨(by simp [preCreateDB]),
   (create_project_initial_message samplePayload alice preCreateDB 9
      (by simp [preCreateDB])).2.2⟩

/-- The file list of the (unique) stored project with the given id, as
the `_id`-keyed `find_one` sees it. -/
def projectFiles (db : DB) (pid : Nat) : List FileMeta :=
  match db.projects.find? (fun p => p.id == pid) with
  | some p => p.files
  | none => []

/-- The store after `upload_file`'s `$push`: the first project document
with the given `_id` gets the metadata appended to its `files` array. -/
def pushFile (db : DB) (pid : Nat) (meta : FileMeta) : DB :=
  { db with
      projects := updateOne db.projects (fun p => p.id == pid)
        (fun p => { p with files := p.files ++ [meta] }) }

/-- Evaluation form of `upload_file`, used to rewrite under its
`let`-bindings. -/
theorem upload_file_eq (pid : Nat) (file : UploadedFile) (cu : UserDoc) (db : DB)
    (now : Nat) :
    upload_file pid file cu db now =
      if ((db.projects.find?
            (fun p => p.id == pid && p.user_id == toString cu.id)).isNone
          && !cu.is_admin) then
        Except.error { status_code := 404, detail := "Project not found" }
      else
        Except.ok (mkFileMeta file now, pushFile db pid (mkFileMeta file now)) := rfl

/-- `$push` against an `_id` no document carries leaves the store
unchanged. -/
theorem pushFile_no_match (db : DB) (pid : Nat) (meta : FileMeta)
    (h : ∀ q ∈ db.projects, q.id ≠ pid) : pushFile db pid meta = db := by
  unfold pushFile
  rw [updateOne_eq_of_forall_not _ _ _ fun q hq => by simpa using h q hq]

/-- C2: for a stored project, `upload_file` succeeds — returning the
metadata and appending it to that project's file list — iff the
uploader owns the project or is an admin; a non-admin non-owner gets
exactly `HTTPException(404, "Project not found")` (NotFound, never
Forbidden). -/
theorem upload_file_owner_or_admin (pid : Nat) (file : UploadedFile) (cu : UserDoc)
    (db : DB) (now : Nat) (p : ProjectDoc)
    (hmem : p ∈ db.projects) (hid : p.id = pid)
    (huniq : ∀ q ∈ db.projects, q.id = pid → q = p) :
    ((p.user_id = toString cu.id ∨ cu.is_admin = true) →
      ∃ db', upload_file pid file cu db now = Except.ok (mkFileMeta file now, db') ∧
        projectFiles db' pid = projectFiles db pid ++ [mkFileMeta file now]) ∧
    (p.user_id ≠ toString cu.id → cu.is_admin = false →
      upload_file pid file cu db now =
        Except.error { status_code := 404, detail := "Project not found" }) := by
  constructor
  · intro hperm
    have hguard : ((db.projects.find?
        (fun q => q.id == pid && q.user_id == toString cu.id)).isNone
          && !cu.is_admin) = false := by
      rcases hperm with howner | hadmin
      · have hsome : (db.projects.find?
            (fun q => q.id == pid && q.user_id == toString cu.id)).isSome := by
          rw [List.find?_isSome]
          exact ⟨p, hmem, by simp [hid, howner]⟩
        rcases Option.isSome_iff_exists.mp hsome with ⟨q, hq⟩
        simp [hq]
      · simp [hadmin]
    refine ⟨pushFile db pid (mkFileMeta file now), ?_, ?_⟩
    · rw [upload_file_eq, hguard]
      simp
    · unfold projectFiles pushFile
      show (match (updateOne db.projects (fun q => q.id == pid)
            (fun q => { q with files := q.files ++ [mkFileMeta file now] })).find?
              (fun q => q.id == pid) with
          | some q => q.files
          | none => []) = _
      rw [find?_updateOne db.projects (fun q => q.id == pid)
        (fun q => { q with files := q.files ++ [mkFileMeta file now] }) (fun q => rfl)]
      have hfound : db.projects.find? (fun q => q.id == pid) ≠ none := by
        intro hnone
        have := List.find?_eq_none.mp hnone p hmem
        simp [hid] at this
      cases hfind : db.projects.find? (fun q => q.id == pid) with
      | none => exact absurd hfind hfound
      | some q => simp
  · intro howner hadmin
    have hnone : db.projects.find?
        (fun q => q.id == pid && q.user_id == toString cu.id) = none := by
      rw [List.find?_eq_none]
      intro q hq
      simp only [Bool.and_eq_true, beq_iff_eq, not_and]
      intro hqid
      have := huniq q hq hqid
      subst this
      simpa using howner
    rw [upload_file_eq, hnone, hadmin]
    simp

theorem upload_file_owner_or_admin_witness :
    (projectA ∈ sampleDB.projects ∧ projectA.id = 10 ∧
      (∀ q ∈ sampleDB.projects, q.id = 10 → q = projectA)) ∧
    upload_file 10 sampleFile bob sampleDB 3 =
      Except.error { status_code := 404, detail := "Project not found" } :=
  ⟨⟨(by simp [sampleDB]), rfl, (by decide)⟩,
   (upload_file_owner_or_admin 10 sampleFile bob sampleDB 3 projectA
      (by simp [sampleDB]) rfl (by decide)).2 (by decide) rfl⟩

/-- C9: an admin caller uploading against a `project_id` that matches no
stored project does not get NotFound: the handler returns success with
the metadata, and the `$push` matches no document, so the store — and
every project's file list — is left unchanged. -/
theorem upload_file_admin_missing_project (pid : Nat) (file : UploadedFile)
    (cu : UserDoc) (db : DB) (now : Nat)
    (hadmin : cu.is_admin = true)
    (hmiss : ∀ q ∈ db.projects, q.id ≠ pid) :
    upload_file pid file cu db now = Except.ok (mkFileMeta file now, db) := by
  rw [upload_file_eq, hadmin, pushFile_no_match db pid (mkFileMeta file now) hmiss]
  simp

theorem upload_file_admin_missing_project_witness :
    rootAdmin.is_admin = true ∧
    (∀ q ∈ sampleDB.projects, q.id ≠ 99) ∧
    upload_file 99 sampleFile rootAdmin sampleDB 3 =
      Except.ok (mkFileMeta sampleFile 3, sampleDB) :=
  ⟨rfl, (by decide),
   upload_file_admin_missing_project 99 sampleFile rootAdmin sampleDB 3 rfl (by decide)⟩

/-- The `$set` document of `admin_update_status` applied to a project
document: `status` always, `notes` only when supplied. -/
def statusApply (payload : StatusUpdateModel) (p : ProjectDoc) : ProjectDoc :=
  let p := { p with status := payload.status }
  match payload.notes with | some n => { p with notes := some n } | none => p

/-- Evaluation form of `admin_update_status`. -/
theorem admin_update_status_eq (pid : Nat) (payload : StatusUpdateModel)
    (cu : UserDoc) (db : DB) :
    admin_update_status pid payload cu db =
      if !cu.is_admin then
        Except.error { status_code := 403, detail := "Admins only" }
      else
        Except.ok ("Status updated",
          { db with
              projects := updateOne db.projects (fun p => p.id == pid)
                (statusApply payload) }) := rfl

/-- C5: `admin_update_status` rejects non-admin callers with
`HTTPException(403, "Admins only")`; for an admin it always returns
"Status updated", applying `statusApply` to the (at most one) project
with the given id — setting `status` unconditionally and `notes` only
when supplied, leaving every other field and every other project
untouched — and when the id matches no stored project the call is a
successful no-op that leaves the store unchanged. -/
theorem admin_update_status_spec (pid : Nat) (payload : StatusUpdateModel)
    (cu : UserDoc) (db : DB) :
    (cu.is_admin = false →
      admin_update_status pid payload cu db =
        Except.error { status_code := 403, detail := "Admins only" }) ∧
    (cu.is_admin = true → (∀ q ∈ db.projects, q.id ≠ pid) →
      admin_update_status pid payload cu db = Except.ok ("Status updated", db)) ∧
    (cu.is_admin = true → db.projects.countP (fun q => q.id == pid) ≤ 1 →
      admin_update_status pid payload cu db =
        Except.ok ("Status updated",
          { db with
              projects := db.projects.map (fun q =>
                if q.id == pid then statusApply payload q else q) })) ∧
    (∀ p : ProjectDoc,
      (statusApply payload p).status = payload.status ∧
      (payload.notes = none → (statusApply payload p).notes = p.notes) ∧
      (∀ n, payload.notes = some n → (statusApply payload p).notes = some n) ∧
      (statusApply payload p).id = p.id ∧
      (statusApply payload p).user_id = p.user_id ∧
      (statusApply payload p).files = p.files) := by
  refine ⟨?_, ?_, ?_, ?_⟩
  · intro h
    rw [admin_update_status_eq]
    simp [h]
  · intro hadm hmiss
    rw [admin_update_status_eq, hadm]
    rw [updateOne_eq_of_forall_not _ _ _ fun q hq => by simpa using hmiss q hq]
    simp
  · intro hadm hcount
    rw [admin_update_status_eq, hadm]
    rw [updateOne_eq_map_of_countP_le_one _ _ _ hcount]
    simp
  · intro p
    refine ⟨?_, ?_, ?_, ?_, ?_, ?_⟩ <;>
      cases hn : payload.notes <;> simp [statusApply, hn]

theorem admin_update_status_spec_witness :
    rootAdmin.is_admin = true ∧
    (∀ q ∈ sampleDB.projects, q.id ≠ 999) ∧
    admin_update_status 999 { status := "Done", notes := none } rootAdmin sampleDB =
      Except.ok ("Status updated", sampleDB) :=
  ⟨rfl, (by decide),
   (admin_update_status_spec 999 { status := "Done", notes := none }
      rootAdmin sampleDB).2.1 rfl (by decide)⟩

/-- C6 evaluation at the failing input: with two projects created in
succession (`projectA` inserted before `projectB`) and an admin caller
with no filters, `admin_list_projects` returns them in collection
(ascending creation) order.  The `created_at` sort key is absent from
every project document — `schemas.Project` has no such field — so the
`.sort("created_at", -1)` cannot order by creation time descending. -/
theorem admin_list_projects_insertion_order :
    rootAdmin.is_admin = true ∧
    projectCreatedAt projectA = none ∧
    projectCreatedAt projectB = none ∧
    admin_list_projects none none rootAdmin twoProjectDB =
      Except.ok [projectA, projectB] ∧
    projectA ≠ projectB := by
  refine ⟨rfl, rfl, rfl, rfl, by decide⟩

/-- C7: `update_me` with an empty field set leaves the store entirely
unchanged; in every case the user collection is rewritten pointwise so
that id, email, admin flag and password hash are never changed, name is
unchanged whenever the payload does not supply it, and phone is
unchanged whenever the payload does not supply it. -/
theorem update_me_frame (payload : ProfileUpdateModel) (cu : UserDoc) (db : DB) :
    ((payload.name = none ∧ payload.phone = none) → (update_me payload cu db).2 = db) ∧
    List.Forall₂ (fun u u' : UserDoc =>
        u'.id = u.id ∧ u'.email = u.email ∧ u'.is_admin = u.is_admin ∧
        u'.password_hash = u.password_hash ∧
        (payload.name = none → u'.name = u.name) ∧
        (payload.phone = none → u'.phone = u.phone))
      db.users (update_me payload cu db).2.users := by
  constructor
  · rintro ⟨hn, hp⟩
    simp [update_me, hn, hp]
  · by_cases h : (payload.name.isSome || payload.phone.isSome) = true
    · have husers : (update_me payload cu db).2.users =
          updateOne db.users (fun u => u.id == cu.id) (profileApply payload) := by
        simp [update_me, h]
      rw [husers]
      apply updateOne_forall₂
      · intro x
        exact ⟨rfl, rfl, rfl, rfl, fun _ => rfl, fun _ => rfl⟩
      · intro x
        refine ⟨?_, ?_, ?_, ?_, ?_, ?_⟩ <;>
          cases hn : payload.name <;> cases hp : payload.phone <;>
            simp [profileApply, hn, hp]
    · have h' : (payload.name.isSome || payload.phone.isSome) = false := by
        simpa using h
      have husers : (update_me payload cu db).2.users = db.users := by
        simp [update_me, h']
      rw [husers]
      exact List.forall₂_same.mpr fun u _ =>
        ⟨rfl, rfl, rfl, rfl, fun _ => rfl, fun _ => rfl⟩

theorem update_me_frame_witness :
    ((ProfileUpdateModel.mk none none).name = none ∧
      (ProfileUpdateModel.mk none none).phone = none) ∧
    (update_me { name := none, phone := none } alice sampleDB).2 = sampleDB :=
  ⟨⟨rfl, rfl⟩,
   (update_me_frame { name := none, phone := none } alice sampleDB).1 ⟨rfl, rfl⟩⟩

/-- A token whose signature does not verify against the secret: any
tampering with the payload leaves the stored signature mismatched. -/
def tamperedToken : Token :=
  { sub := some "x", exp := 10, sig := signature JWT_SECRET (some "x") 10 + 1 }

/-- C8: issuing a token for a subject and decoding it strictly before
its expiry instant yields the original subject id; decoding at or after
the expiry instant fails with `TokenExpired` (the 401 "Token expired"
branch); decoding any token whose signature does not verify fails with
`TokenInvalid` (the 401 "Could not validate credentials" branch), at
every time. -/
theorem token_issue_decode_spec (uid : String) (d : Option Nat) (now nowIn nowAfter : Nat)
    (t' : Token) :
    (nowIn < (create_access_token (some uid) d now).exp →
      decode_subject (create_access_token (some uid) d now) nowIn = Except.ok uid) ∧
    ((create_access_token (some uid) d now).exp ≤ nowAfter →
      decode_subject (create_access_token (some uid) d now) nowAfter =
        Except.error TokenError.tokenExpired) ∧
    (t'.sig ≠ signature JWT_SECRET t'.sub t'.exp →
      ∀ n : Nat, decode_subject t' n = Except.error TokenError.tokenInvalid) := by
  have hsig : (create_access_token (some uid) d now).sig =
      signature JWT_SECRET (create_access_token (some uid) d now).sub
        (create_access_token (some uid) d now).exp := rfl
  have hsub : (create_access_token (some uid) d now).sub = some uid := rfl
  refine ⟨?_, ?_, ?_⟩
  · intro h
    have hdec : jwt_decode (create_access_token (some uid) d now) JWT_SECRET nowIn =
        Except.ok (some uid, (create_access_token (some uid) d now).exp) := by
      unfold jwt_decode
      rw [hsig]
      simp only [bne_self_eq_false, Bool.false_eq_true, if_false]
      rw [if_neg (Nat.not_le.mpr h), hsub]
    unfold decode_subject
    rw [hdec]
  · intro h
    have hdec : jwt_decode (create_access_token (some uid) d now) JWT_SECRET nowAfter =
        Except.error JwtError.expiredSignature := by
      unfold jwt_decode
      rw [hsig]
      simp only [bne_self_eq_false, Bool.false_eq_true, if_false]
      rw [if_pos h]
    unfold decode_subject
    rw [hdec]
  · intro htam n
    have hbne : (t'.sig != signature JWT_SECRET t'.sub t'.exp) = true := by
      simpa [bne_iff_ne] using htam
    have hdec : jwt_decode t' JWT_SECRET n = Except.error JwtError.invalidToken := by
      unfold jwt_decode
      rw [hbne]
      simp
    unfold decode_subject
    rw [hdec]

theorem token_issue_decode_spec_witness :
    (50 < (create_access_token (some "42") (some 100) 0).exp ∧
      decode_subject (create_access_token (some "42") (some 100) 0) 50 =
        Except.ok "42") ∧
    ((create_access_token (some "42") (some 100) 0).exp ≤ 100 ∧
      decode_subject (create_access_token (some "42") (some 100) 0) 100 =
        Except.error TokenError.tokenExpired) ∧
    (tamperedToken.sig ≠ signature JWT_SECRET tamperedToken.sub tamperedToken.exp ∧
      decode_subject tamperedToken 0 = Except.error TokenError.tokenInvalid) :=
  ⟨⟨by decide,
    (token_issue_decode_spec "42" (some 100) 0 50 100 tamperedToken).1 (by decide)⟩,
   ⟨by decide,
    (token_issue_decode_spec "42" (some 100) 0 50 100 tamperedToken).2.1 (by decide)⟩,
   ⟨by decide,
    (token_issue_decode_spec "42" (some 100) 0 50 100 tamperedToken).2.2 (by decide) 0⟩⟩

/-- C10: the app registers a `GET /schema` route with no authentication
dependency, the documented route table of the spec has no row for
`/schema`, and the handler returns the full source text of the schemas
module to any caller. -/
theorem schema_route_unauthenticated_undocumented :
    (Route.mk "GET" "/schema" false) ∈ appRoutes ∧
    specRouteTable.all (fun r => r.path != "/schema") = true ∧
    get_schema = SchemaResponse.mk schemasSource :=
  ⟨by decide, by decide, rfl⟩
